import Mathlib

/-!
# UAV manufacturing application: assembly consistency engine

A shallow embedding of the uav_manufacturing_app repository.  The repository's
visible source is the React frontend (`AircraftDetailModal.js`, `PartsTable`,
`PartCreateModal`, ...); the backend REST API it calls (`/api/parts/`,
`/api/aircraftparts/`, `/api/parts/bulk-delete/`) is described by the design
spec as ComponentRegistry / AssemblyLedger / RecycleBatch /
TeamAuthorizationGate.  Frontend handlers are translated from the source;
backend operations absent from the source are modelled from the spec and say
so in their doc comments.

Field names follow the wire format the frontend uses: a part's `name` holds
its category string (WING/BODY/TAIL/AVIONICS), `aircraft_type` holds the
aircraft model the part fits, `is_used` is the cached usage state; an
aircraft's `name` holds its model (the frontend filter compares
`part.aircraft_type === aircraft.name`).
-/

namespace UAV

/-- Component categories; in the source a part's `name` field holds one of
these four strings. -/
inductive Category where
  | WING
  | BODY
  | TAIL
  | AVIONICS
deriving DecidableEq, Repr

/-- The spec's `usageState` enumeration, derived from the cached `is_used`
flag. -/
inductive UsageState where
  | AVAILABLE
  | INSTALLED
deriving DecidableEq, Repr

/-- A manufactured component (`Part` in the frontend wire format). -/
structure Part where
  id : Nat
  name : Category
  aircraft_type : String
  is_used : Bool
  team : String
deriving DecidableEq, Repr

/-- The spec's `usageState`, read off the cached `is_used` flag. -/
def Part.usageState (p : Part) : UsageState :=
  if p.is_used then UsageState.INSTALLED else UsageState.AVAILABLE

/-- An aircraft; `name` holds the model (AKINCI/TB2/TB3/KIZILELMA). -/
structure Aircraft where
  id : Nat
  name : String
  serial_number : String
  is_produced : Bool
deriving DecidableEq, Repr

/-- An installation link (`AircraftPart` record of `/api/aircraftparts/`):
references exactly one aircraft and one part. -/
structure AircraftPart where
  id : Nat
  aircraft : Nat
  part : Nat
deriving DecidableEq, Repr

/-- The persistent store behind the REST API: the three record tables plus the
id counter for newly created links. -/
structure Store where
  parts : List Part
  aircrafts : List Aircraft
  aircraftparts : List AircraftPart
  nextLinkId : Nat
deriving DecidableEq, Repr

/-- Look up a part by id. -/
def findPart (ps : List Part) (cid : Nat) : Option Part :=
  ps.find? (fun c => c.id == cid)

/-- Look up an aircraft by id. -/
def findAircraft (as_ : List Aircraft) (aid : Nat) : Option Aircraft :=
  as_.find? (fun a => a.id == aid)

/-- `setUsage` of the spec's ComponentRegistry (`PATCH /api/parts/{id}/`
`is_used` in the frontend): rewrite the cached usage flag of the part with the
given id. -/
def setUsage (ps : List Part) (cid : Nat) (u : Bool) : List Part :=
  ps.map (fun c => if c.id == cid then { c with is_used := u } else c)

/-- The category of the part a link references, when that part exists. -/
def linkCategory (ps : List Part) (l : AircraftPart) : Option Category :=
  (findPart ps l.part).map Part.name

/-- Number of installation links for a given (aircraft, category) pair. -/
def catCount (links : List AircraftPart) (ps : List Part) (aid : Nat)
    (cat : Category) : Nat :=
  (links.filter (fun l => l.aircraft == aid && linkCategory ps l == some cat)).length

/-- Number of installation links referencing a given part. -/
def linkCount (links : List AircraftPart) (cid : Nat) : Nat :=
  (links.filter (fun l => l.part == cid)).length

/-- Number of installation links for a given (aircraft, part) pair. -/
def pairCount (links : List AircraftPart) (aid cid : Nat) : Nat :=
  (links.filter (fun l => l.aircraft == aid && l.part == cid)).length

/-- Modelled from the spec: `isProducedRecompute(aircraftId)` of §4.3 (the
backend recomputation is not under src/) — true iff exactly one link exists
for each of the four categories; a pure function of the current links and the
parts table that gives each link its category. -/
def isProducedRecompute (links : List AircraftPart) (ps : List Part)
    (aid : Nat) : Bool :=
  [Category.WING, Category.BODY, Category.TAIL, Category.AVIONICS].all
    (fun cat => catCount links ps aid cat == 1)

/-- Error taxonomy of spec §7 for the AssemblyLedger `install` operation. -/
inductive InstallError where
  | NotFound
  | ModelMismatch
  | CategoryOccupied
  | ComponentAlreadyInstalled
deriving DecidableEq, Repr

/-- Modelled from the spec: `AssemblyLedger.install(aircraftId, componentId)`
of §4.3 (the backend ledger is not under src/).  Steps: load both records
(`NotFound`), check model (`ModelMismatch`), check the category slot
(`CategoryOccupied`), check the cached usage (`ComponentAlreadyInstalled`),
then atomically create the link, set usage to INSTALLED and recompute
`is_produced`. -/
def install (s : Store) (aid cid : Nat) : Except InstallError Store :=
  match findAircraft s.aircrafts aid, findPart s.parts cid with
  | some a, some c =>
    if c.aircraft_type ≠ a.name then Except.error InstallError.ModelMismatch
    else if 0 < catCount s.aircraftparts s.parts aid c.name then
      Except.error InstallError.CategoryOccupied
    else if c.is_used then Except.error InstallError.ComponentAlreadyInstalled
    else
      let links := s.aircraftparts ++ [⟨s.nextLinkId, aid, cid⟩]
      let ps := setUsage s.parts cid true
      Except.ok
        { parts := ps
          aircrafts := s.aircrafts.map (fun a2 =>
            if a2.id == aid then
              { a2 with is_produced := isProducedRecompute links ps aid }
            else a2)
          aircraftparts := links
          nextLinkId := s.nextLinkId + 1 }
  | _, _ => Except.error InstallError.NotFound

/-- Error for the AssemblyLedger `uninstall` operation (spec §7). -/
inductive UninstallError where
  | LinkNotFound
deriving DecidableEq, Repr

/-- Modelled from the spec: `AssemblyLedger.uninstall(aircraftId, componentId)`
of §4.3 (the backend ledger is not under src/).  Fails `LinkNotFound` when no
link for the pair exists; otherwise removes the link, sets the part's usage
back to AVAILABLE and recomputes `is_produced`. -/
def uninstall (s : Store) (aid cid : Nat) : Except UninstallError Store :=
  if pairCount s.aircraftparts aid cid = 0 then
    Except.error UninstallError.LinkNotFound
  else
    let links := s.aircraftparts.filter
      (fun l => !(l.aircraft == aid && l.part == cid))
    let ps := setUsage s.parts cid false
    Except.ok
      { parts := ps
        aircrafts := s.aircrafts.map (fun a2 =>
          if a2.id == aid then
            { a2 with is_produced := isProducedRecompute links ps aid }
          else a2)
        aircraftparts := links
        nextLinkId := s.nextLinkId }

/-- Errors of the RecycleBatch `recycle` operation (spec §7). -/
inductive RecycleError where
  | ForeignComponent
  | ComponentInUse
deriving DecidableEq, Repr

/-- Modelled from the spec: `RecycleBatch.recycle(componentIds, actingTeam)` of
§4.4 (the backend `/api/parts/bulk-delete/` handler is not under src/; the
frontend `handleRecycle` posts the selected ids to it).  Fails
`ForeignComponent` if any id is absent or produced by another team, fails
`ComponentInUse` if any id is currently INSTALLED, otherwise destroys all
listed parts as one atomic operation. -/
def recycle (s : Store) (ids : List Nat) (actingTeam : String) :
    Except RecycleError Store :=
  if ids.any (fun i =>
      match findPart s.parts i with
      | some c => c.team != actingTeam
      | none => true) then
    Except.error RecycleError.ForeignComponent
  else if ids.any (fun i =>
      match findPart s.parts i with
      | some c => c.is_used
      | none => false) then
    Except.error RecycleError.ComponentInUse
  else
    Except.ok { s with parts := s.parts.filter (fun c => !(ids.contains c.id)) }

/-- The static team→category mapping of `assignPartType` in
`PartCreateModal.js`: Wing Team→WING, Body Team→BODY, Tail Team→TAIL,
Avionics Team→AVIONICS. -/
def partTypeMap (teamName : String) : Option Category :=
  if teamName = "Wing Team" then some Category.WING
  else if teamName = "Body Team" then some Category.BODY
  else if teamName = "Tail Team" then some Category.TAIL
  else if teamName = "Avionics Team" then some Category.AVIONICS
  else none

/-- The closed set of aircraft models offered by the frontend selects
(`PartCreateModal.js` aircraft-type menu). -/
def aircraftModels : List String := ["AKINCI", "TB2", "TB3", "KIZILELMA"]

/-- Errors of TeamAuthorizationGate and ComponentRegistry creation
(spec §4.1/§4.2/§7). -/
inductive CreateError where
  | UnassignedTeam
  | CategoryMismatch
  | InvalidModel
deriving DecidableEq, Repr

/-- Modelled from the spec: `authorizeCreation(actingIdentity,
requestedCategory)` of §4.1 (the backend gate is not under src/); the acting
identity is resolved to its team name and checked against the static
`partTypeMap` the frontend also uses.  Pure check, no side effect. -/
def authorizeCreation (teamName : String) (requested : Category) :
    Except CreateError Unit :=
  match partTypeMap teamName with
  | none => Except.error CreateError.UnassignedTeam
  | some allowed =>
    if requested ≠ allowed then Except.error CreateError.CategoryMismatch
    else Except.ok ()

/-- Modelled from the spec: `ComponentRegistry.create(team, category,
aircraftModel)` of §4.2 (the backend `/api/parts/` POST handler is not under
src/): requires `authorizeCreation` success, rejects models outside the
enumerated set, otherwise appends a new AVAILABLE component produced by the
acting team. -/
def createPart (s : Store) (teamName : String) (requested : Category)
    (model : String) (newId : Nat) : Except CreateError Store :=
  match authorizeCreation teamName requested with
  | Except.error e => Except.error e
  | Except.ok _ =>
    if !(aircraftModels.contains model) then Except.error CreateError.InvalidModel
    else
      Except.ok { s with
        parts := s.parts ++ [⟨newId, requested, model, false, teamName⟩] }

/-- Modelled from the spec: the backend `POST /api/aircraftparts/` create
endpoint (not under src/), validating per §4.3 steps 1–4 and creating the
InstallationLink of step 5.  The usage flag is NOT touched here: the frontend
`handleAddPart` issues a separate `PATCH /api/parts/{id}/` for it, which is
exactly what the atomicity claims are about. -/
def postAircraftPart (s : Store) (aid cid : Nat) : Except InstallError Store :=
  match findAircraft s.aircrafts aid, findPart s.parts cid with
  | some a, some c =>
    if c.aircraft_type ≠ a.name then Except.error InstallError.ModelMismatch
    else if 0 < catCount s.aircraftparts s.parts aid c.name then
      Except.error InstallError.CategoryOccupied
    else if c.is_used then Except.error InstallError.ComponentAlreadyInstalled
    else
      Except.ok { s with
        aircraftparts := s.aircraftparts ++ [⟨s.nextLinkId, aid, cid⟩]
        nextLinkId := s.nextLinkId + 1 }
  | _, _ => Except.error InstallError.NotFound

/-- Translated from `handleAddPart` in `AircraftDetailModal.js`.
`currentParts` is the client's cached `currentAircraftParts` list; the two
guards reproduce the `partExists` (same `name`, i.e. same category) and
`partExistsInCurrentAircraft` (same id) checks.  Then the handler awaits
`POST /api/aircraftparts/` and, as a separate call, `PATCH
/api/parts/{id}/ is_used=true`; `patchOk` says whether that second HTTP call
succeeds — on its failure control jumps to the catch block, which reports the
error without undoing the POST.  Returns the resulting backend store and
whether an error was reported. -/
def handleAddPart (s : Store) (currentParts : List Part) (part : Part)
    (aid : Nat) (patchOk : Bool) : Store × Bool :=
  if currentParts.any (fun p => p.name == part.name) then (s, true)
  else if currentParts.any (fun p => p.id == part.id) then (s, true)
  else
    match postAircraftPart s aid part.id with
    | Except.error _ => (s, true)
    | Except.ok s1 =>
      if patchOk then ({ s1 with parts := setUsage s1.parts part.id true }, false)
      else (s1, true)

/-- Translated from `handleRemovePart` in `AircraftDetailModal.js`: query the
AircraftPart records for `?part={part.id}&aircraft={aircraft.id}`; if the
response is nonempty take `response.data[0].id`, DELETE that single record,
then PATCH the part's `is_used` to false; if the response is empty report
"No matching AircraftPart found" and change nothing. -/
def handleRemovePart (s : Store) (part : Part) (aid : Nat) : Option Store :=
  match s.aircraftparts.filter (fun l => l.part == part.id && l.aircraft == aid) with
  | [] => none
  | l :: _ =>
    some { s with
      aircraftparts := s.aircraftparts.filter (fun l2 => l2.id != l.id)
      parts := setUsage s.parts part.id false }

/-- Spec §8 invariant: for all aircraft and categories, at most one
InstallationLink exists per (aircraft, category) pair. -/
def atMostOnePerCategory (s : Store) : Prop :=
  ∀ aid cat, catCount s.aircraftparts s.parts aid cat ≤ 1

/-- Spec §8 "no drift" invariant in its inductive form: every part is
referenced by exactly one link when `is_used` and by none otherwise (this is
the conjunction of the `INSTALLED ↔ one link` iff with "no part appears in
two links"). -/
def usageConsistent (s : Store) : Prop :=
  ∀ c ∈ s.parts, linkCount s.aircraftparts c.id = (if c.is_used then 1 else 0)

/-! ## Helper lemmas -/

theorem findPart_setUsage (ps : List Part) (cid : Nat) (u : Bool) (x : Nat) :
    findPart (setUsage ps cid u) x
      = (findPart ps x).map
          (fun c => if c.id == cid then { c with is_used := u } else c) := by
  unfold findPart setUsage
  rw [List.find?_map]
  have hp : ((fun c => c.id == x) ∘ fun c =>
      if c.id == cid then { c with is_used := u } else c)
      = (fun (c : Part) => c.id == x) := by
    funext c
    by_cases h : c.id = cid <;> simp [Function.comp, h]
  rw [hp]

theorem findPart_some (ps : List Part) (x : Nat) (c : Part)
    (h : findPart ps x = some c) : c ∈ ps ∧ c.id = x := by
  refine ⟨List.mem_of_find?_eq_some h, ?_⟩
  have := List.find?_some h
  simpa using this

theorem findPart_setUsage_other (ps : List Part) (cid : Nat) (u : Bool)
    (x : Nat) (hx : x ≠ cid) :
    findPart (setUsage ps cid u) x = findPart ps x := by
  rw [findPart_setUsage]
  cases hf : findPart ps x with
  | none => rfl
  | some c =>
    have hid := (findPart_some ps x c hf).2
    have hne : ¬ (c.id = cid) := by
      rw [hid]; exact hx
    simp [hne]

theorem findPart_setUsage_self (ps : List Part) (cid : Nat) (u : Bool)
    (c : Part) (h : findPart ps cid = some c) :
    findPart (setUsage ps cid u) cid = some { c with is_used := u } := by
  rw [findPart_setUsage, h]
  have hid := (findPart_some ps cid c h).2
  simp [hid]

theorem linkCategory_setUsage (ps : List Part) (cid : Nat) (u : Bool)
    (l : AircraftPart) :
    linkCategory (setUsage ps cid u) l = linkCategory ps l := by
  unfold linkCategory
  rw [findPart_setUsage]
  cases findPart ps l.part with
  | none => rfl
  | some c =>
    by_cases h : c.id = cid <;> simp [h]

theorem catCount_setUsage (links : List AircraftPart) (ps : List Part)
    (cid : Nat) (u : Bool) (aid : Nat) (cat : Category) :
    catCount links (setUsage ps cid u) aid cat = catCount links ps aid cat := by
  unfold catCount
  congr 1
  apply List.filter_congr
  intro l _
  rw [linkCategory_setUsage]

theorem catCount_append_one (links : List AircraftPart) (ps : List Part)
    (l : AircraftPart) (aid : Nat) (cat : Category) :
    catCount (links ++ [l]) ps aid cat
      = catCount links ps aid cat
        + (if l.aircraft = aid ∧ linkCategory ps l = some cat then 1 else 0) := by
  unfold catCount
  rw [List.filter_append]
  by_cases h : l.aircraft = aid ∧ linkCategory ps l = some cat
  · simp [h.1, h.2]
  · rw [List.length_append]
    congr 1
    simp only [List.filter, Bool.and_eq_true, beq_iff_eq]
    split
    · rename_i hcond
      simp only [Bool.and_eq_true, beq_iff_eq] at hcond
      exact absurd hcond h
    · simp [h]

theorem linkCount_append_one (links : List AircraftPart) (l : AircraftPart)
    (x : Nat) :
    linkCount (links ++ [l]) x
      = linkCount links x + (if l.part = x then 1 else 0) := by
  unfold linkCount
  rw [List.filter_append]
  by_cases h : l.part = x <;> simp [h]

theorem catCount_sublist (links1 links2 : List AircraftPart) (ps : List Part)
    (aid : Nat) (cat : Category) (h : links1.Sublist links2) :
    catCount links1 ps aid cat ≤ catCount links2 ps aid cat := by
  exact List.Sublist.length_le (List.Sublist.filter _ h)

/-- The store produced by a successful `install` (the success branch of the
definition, named for reuse in lemma statements). -/
def installResult (s : Store) (aid cid : Nat) : Store :=
  let links := s.aircraftparts ++ [⟨s.nextLinkId, aid, cid⟩]
  let ps := setUsage s.parts cid true
  { parts := ps
    aircrafts := s.aircrafts.map (fun a2 =>
      if a2.id == aid then
        { a2 with is_produced := isProducedRecompute links ps aid }
      else a2)
    aircraftparts := links
    nextLinkId := s.nextLinkId + 1 }

/-- The store produced by a successful `uninstall` (named success branch). -/
def uninstallResult (s : Store) (aid cid : Nat) : Store :=
  let links := s.aircraftparts.filter (fun l => !(l.aircraft == aid && l.part == cid))
  let ps := setUsage s.parts cid false
  { parts := ps
    aircrafts := s.aircrafts.map (fun a2 =>
      if a2.id == aid then
        { a2 with is_produced := isProducedRecompute links ps aid }
      else a2)
    aircraftparts := links
    nextLinkId := s.nextLinkId }

theorem installResult_parts (s : Store) (aid cid : Nat) :
    (installResult s aid cid).parts = setUsage s.parts cid true := rfl

theorem installResult_aircraftparts (s : Store) (aid cid : Nat) :
    (installResult s aid cid).aircraftparts
      = s.aircraftparts ++ [⟨s.nextLinkId, aid, cid⟩] := rfl

theorem uninstallResult_parts (s : Store) (aid cid : Nat) :
    (uninstallResult s aid cid).parts = setUsage s.parts cid false := rfl

theorem uninstallResult_aircraftparts (s : Store) (aid cid : Nat) :
    (uninstallResult s aid cid).aircraftparts
      = s.aircraftparts.filter (fun l => !(l.aircraft == aid && l.part == cid)) := rfl

theorem uninstallResult_aircrafts (s : Store) (aid cid : Nat) :
    (uninstallResult s aid cid).aircrafts
      = s.aircrafts.map (fun a2 =>
          if a2.id == aid then
            { a2 with
              is_produced :=
                isProducedRecompute
                  (s.aircraftparts.filter
                    (fun l => !(l.aircraft == aid && l.part == cid)))
                  (setUsage s.parts cid false) aid }
          else a2) := rfl

theorem installResult_aircrafts (s : Store) (aid cid : Nat) :
    (installResult s aid cid).aircrafts
      = s.aircrafts.map (fun a2 =>
          if a2.id == aid then
            { a2 with
              is_produced :=
                isProducedRecompute (s.aircraftparts ++ [⟨s.nextLinkId, aid, cid⟩])
                  (setUsage s.parts cid true) aid }
          else a2) := rfl

theorem findAircraft_some (as_ : List Aircraft) (x : Nat) (a : Aircraft)
    (h : findAircraft as_ x = some a) : a ∈ as_ ∧ a.id = x := by
  refine ⟨List.mem_of_find?_eq_some h, ?_⟩
  have := List.find?_some h
  simpa using this

theorem findAircraft_setProduced (as_ : List Aircraft) (aid : Nat) (b : Bool)
    (x : Nat) :
    findAircraft
      (as_.map (fun a2 => if a2.id == aid then { a2 with is_produced := b } else a2)) x
      = (findAircraft as_ x).map
          (fun a2 => if a2.id == aid then { a2 with is_produced := b } else a2) := by
  unfold findAircraft
  rw [List.find?_map]
  have hp : ((fun a2 => a2.id == x) ∘ fun a2 =>
      if a2.id == aid then { a2 with is_produced := b } else a2)
      = (fun (a2 : Aircraft) => a2.id == x) := by
    funext a2
    by_cases h : a2.id = aid <;> simp [Function.comp, h]
  rw [hp]

theorem install_ok_elim {s : Store} {aid cid : Nat} {s' : Store}
    (h : install s aid cid = Except.ok s') :
    ∃ a c, findAircraft s.aircrafts aid = some a ∧
      findPart s.parts cid = some c ∧
      c.aircraft_type = a.name ∧
      catCount s.aircraftparts s.parts aid c.name = 0 ∧
      c.is_used = false ∧
      s' = installResult s aid cid := by
  unfold install at h
  split at h
  · rename_i a c hA hC
    split at h
    · exact absurd h (by simp)
    · split at h
      · exact absurd h (by simp)
      · split at h
        · exact absurd h (by simp)
        · rename_i hm hocc hused
          refine ⟨a, c, hA, hC, not_not.mp hm, ?_, by simpa using hused, ?_⟩
          · omega
          · simpa [installResult] using h.symm
  · exact absurd h (by simp)

theorem install_ok_intro (s : Store) (aid cid : Nat) (a : Aircraft) (c : Part)
    (hA : findAircraft s.aircrafts aid = some a)
    (hC : findPart s.parts cid = some c)
    (hm : c.aircraft_type = a.name)
    (hocc : catCount s.aircraftparts s.parts aid c.name = 0)
    (hused : c.is_used = false) :
    install s aid cid = Except.ok (installResult s aid cid) := by
  unfold install
  rw [hA, hC]
  simp [hm, hocc, hused, installResult]

theorem uninstall_ok_elim {s : Store} {aid cid : Nat} {s' : Store}
    (h : uninstall s aid cid = Except.ok s') :
    pairCount s.aircraftparts aid cid ≠ 0 ∧ s' = uninstallResult s aid cid := by
  unfold uninstall at h
  split at h
  · exact absurd h (by simp)
  · rename_i hne
    exact ⟨hne, by simpa [uninstallResult] using h.symm⟩

theorem uninstall_ok_intro (s : Store) (aid cid : Nat)
    (hne : pairCount s.aircraftparts aid cid ≠ 0) :
    uninstall s aid cid = Except.ok (uninstallResult s aid cid) := by
  unfold uninstall
  rw [if_neg hne]
  simp [uninstallResult]

theorem catCount_cons (l : AircraftPart) (links : List AircraftPart)
    (ps : List Part) (aid : Nat) (cat : Category) :
    catCount (l :: links) ps aid cat
      = (if l.aircraft = aid ∧ linkCategory ps l = some cat then 1 else 0)
        + catCount links ps aid cat := by
  unfold catCount
  by_cases h : l.aircraft = aid ∧ linkCategory ps l = some cat
  · simp [List.filter_cons, h.1, h.2, Nat.add_comm]
  · rw [if_neg h]
    simp only [List.filter_cons, Nat.zero_add]
    split
    · rename_i hcond
      simp only [Bool.and_eq_true, beq_iff_eq] at hcond
      exact absurd hcond h
    · rfl

theorem filter_length_of_imp {α : Type} (l : List α) (p q : α → Bool)
    (h : ∀ a, p a = true → q a = true) :
    ((l.filter q).filter p).length = (l.filter p).length := by
  rw [List.filter_filter]
  congr 1
  apply List.filter_congr
  intro a _
  by_cases hp : p a = true
  · simp [hp, h a hp]
  · simp [hp]

theorem linkCount_filter_other (links : List AircraftPart) (aid cid x : Nat)
    (hx : x ≠ cid) :
    linkCount (links.filter (fun l => !(l.aircraft == aid && l.part == cid))) x
      = linkCount links x := by
  unfold linkCount
  apply filter_length_of_imp
  intro l hl
  simp only [beq_iff_eq] at hl
  simp [hl, hx]

theorem pairCount_le_linkCount (links : List AircraftPart) (aid cid : Nat) :
    pairCount links aid cid ≤ linkCount links cid := by
  unfold pairCount linkCount
  induction links with
  | nil => exact Nat.le_refl 0
  | cons l links ih =>
    by_cases hp : l.part = cid
    · by_cases ha : l.aircraft = aid
      · simp only [List.filter_cons, hp, ha]
        simpa using Nat.succ_le_succ ih
      · simp only [List.filter_cons, hp, ha]
        simp only [beq_self_eq_true, Bool.and_true, beq_iff_eq, ha, if_false,
          if_true, List.length_cons]
        exact Nat.le_succ_of_le ih
    · simp only [List.filter_cons, hp]
      simpa [hp] using ih

theorem linkCount_remove_unique (links : List AircraftPart) (aid cid : Nat)
    (hone : linkCount links cid = 1)
    (hpair : pairCount links aid cid ≠ 0) :
    linkCount
      (links.filter (fun l => !(l.aircraft == aid && l.part == cid))) cid
      = 0 := by
  unfold linkCount at hone ⊢
  unfold pairCount at hpair
  obtain ⟨m, hm⟩ := List.length_eq_one.mp hone
  obtain ⟨l0, hl0⟩ : ∃ l0,
      l0 ∈ links.filter (fun l => l.aircraft == aid && l.part == cid) := by
    rcases hlist : links.filter (fun l => l.aircraft == aid && l.part == cid)
      with _ | ⟨l0, rest⟩
    · exact absurd (by rw [hlist]; rfl) hpair
    · exact ⟨l0, by rw [hlist]; exact List.mem_cons_self _ _⟩
  rw [List.mem_filter] at hl0
  obtain ⟨hl0mem, hl0p⟩ := hl0
  simp only [Bool.and_eq_true, beq_iff_eq] at hl0p
  have hl0m : l0 = m := by
    have : l0 ∈ links.filter (fun l => l.part == cid) :=
      List.mem_filter.mpr ⟨hl0mem, by simp [hl0p.2]⟩
    rw [hm] at this
    simpa using this
  rw [List.length_eq_zero, List.eq_nil_iff_forall_not_mem]
  intro l hl
  rw [List.mem_filter] at hl
  obtain ⟨hl1, hl2⟩ := hl
  rw [List.mem_filter] at hl1
  obtain ⟨hlmem, hlkeep⟩ := hl1
  have hlm : l = m := by
    have : l ∈ links.filter (fun l => l.part == cid) :=
      List.mem_filter.mpr ⟨hlmem, hl2⟩
    rw [hm] at this
    simpa using this
  subst hlm
  rw [← hl0m] at hlkeep
  simp [hl0p.1, hl0p.2] at hlkeep

theorem isProducedRecompute_iff (links : List AircraftPart) (ps : List Part)
    (aid : Nat) :
    isProducedRecompute links ps aid = true ↔
      ∀ cat : Category, catCount links ps aid cat = 1 := by
  unfold isProducedRecompute
  rw [List.all_eq_true]
  constructor
  · intro h cat
    have := h cat (by cases cat <;> simp)
    simpa using this
  · intro h cat _
    simp [h cat]

theorem isProducedRecompute_false_of_zero (links : List AircraftPart)
    (ps : List Part) (aid : Nat) (cat : Category)
    (h : catCount links ps aid cat = 0) :
    isProducedRecompute links ps aid = false := by
  rw [← Bool.not_eq_true, isProducedRecompute_iff]
  intro hall
  have := hall cat
  omega

theorem pairCount_append_one (links : List AircraftPart) (l : AircraftPart)
    (aid cid : Nat) :
    pairCount (links ++ [l]) aid cid
      = pairCount links aid cid
        + (if l.aircraft = aid ∧ l.part = cid then 1 else 0) := by
  unfold pairCount
  rw [List.filter_append]
  by_cases h : l.aircraft = aid ∧ l.part = cid
  · simp [h.1, h.2]
  · rw [List.length_append]
    congr 1
    simp only [List.filter]
    split
    · rename_i hcond
      simp only [Bool.and_eq_true, beq_iff_eq] at hcond
      exact absurd hcond h
    · simp [h]

theorem pairCount_filter_not (links : List AircraftPart) (aid cid : Nat) :
    pairCount
      (links.filter (fun l => !(l.aircraft == aid && l.part == cid))) aid cid
      = 0 := by
  unfold pairCount
  rw [List.length_eq_zero, List.eq_nil_iff_forall_not_mem]
  intro l hl
  rw [List.mem_filter] at hl
  obtain ⟨hl1, hl2⟩ := hl
  rw [List.mem_filter] at hl1
  rw [hl2] at hl1
  simpa using hl1.2

theorem setUsage_setUsage (ps : List Part) (cid : Nat) (u v : Bool) :
    setUsage (setUsage ps cid u) cid v = setUsage ps cid v := by
  unfold setUsage
  rw [List.map_map]
  apply List.map_congr_left
  intro c _
  by_cases h : c.id = cid <;> simp [Function.comp, h]

/-! ## Concrete witness data -/

/-- A TB2 aircraft with id 1. -/
def tb2A1 : Aircraft := ⟨1, "TB2", "SN-1", false⟩

/-- An AKINCI aircraft with id 2. -/
def akinciA2 : Aircraft := ⟨2, "AKINCI", "SN-2", false⟩

/-- A WING part for TB2, currently installed. -/
def wing1 : Part := ⟨1, Category.WING, "TB2", true, "Wing Team"⟩

/-- A WING part for TB2, currently available. -/
def wing2 : Part := ⟨2, Category.WING, "TB2", false, "Wing Team"⟩

/-- A store where `wing1` is installed on the TB2 aircraft, so the WING slot
of aircraft 1 is occupied. -/
def sOccupied : Store := ⟨[wing1, wing2], [tb2A1], [⟨1, 1, 1⟩], 2⟩

/-- A store with an available TB2 wing and an AKINCI aircraft. -/
def sMismatch : Store := ⟨[wing2], [akinciA2], [], 1⟩

/-- A store with one available TB2 wing, one TB2 aircraft and no links. -/
def sFresh : Store := ⟨[wing2], [tb2A1], [], 1⟩

/-- A second available WING part for TB2. -/
def wing3 : Part := ⟨3, Category.WING, "TB2", false, "Wing Team"⟩

/-- A store with two available TB2 wings, one TB2 aircraft and no links —
the starting point of the install race scenario. -/
def sRace : Store := ⟨[wing2, wing3], [tb2A1], [], 1⟩

/-- The store after the backend POST of the add-part flow on `sFresh`: the
link exists but the usage flag has not been patched yet. -/
def sPosted : Store := ⟨[wing2], [tb2A1], [⟨1, 1, 2⟩], 2⟩

/-- A store holding two installation links for the same (part 1, aircraft 1)
pair — the duplicate-link situation of the remove-part query. -/
def sDup : Store := ⟨[wing1], [tb2A1], [⟨1, 1, 1⟩, ⟨2, 1, 1⟩], 3⟩

/-! ## Claim theorems -/

/-- C4: installing a component whose `aircraft_type` differs from the target
aircraft's model fails with `ModelMismatch`, and no installation link is
created (the operation never returns a mutated store). -/
theorem install_model_mismatch (s : Store) (aid cid : Nat)
    (a : Aircraft) (c : Part)
    (hA : findAircraft s.aircrafts aid = some a)
    (hC : findPart s.parts cid = some c)
    (hm : c.aircraft_type ≠ a.name) :
    install s aid cid = Except.error InstallError.ModelMismatch ∧
    ∀ s', install s aid cid ≠ Except.ok s' := by
  have h : install s aid cid = Except.error InstallError.ModelMismatch := by
    unfold install
    rw [hA, hC]
    simp [hm]
  exact ⟨h, fun s' hk => by rw [h] at hk; cases hk⟩

/-- Witness for C4: a TB2 WING component is never installed into an AKINCI
aircraft — the attempt fails with `ModelMismatch`. -/
theorem install_model_mismatch_witness :
    install sMismatch 2 2 = Except.error InstallError.ModelMismatch ∧
    ∀ s', install sMismatch 2 2 ≠ Except.ok s' :=
  install_model_mismatch sMismatch 2 2 akinciA2 wing2 rfl rfl (by decide)

/-- C1: for every aircraft and category, at most one installation link exists
per (aircraft, category) pair — the invariant is preserved by any successful
`install` — and an install attempt into an occupied slot (with both records
present and the model check passing) is rejected with `CategoryOccupied`
without ever creating a second link. -/
theorem install_category_slot (s : Store) (aid cid : Nat)
    (hinv : atMostOnePerCategory s) :
    (∀ s', install s aid cid = Except.ok s' → atMostOnePerCategory s') ∧
    (∀ a c, findAircraft s.aircrafts aid = some a →
      findPart s.parts cid = some c →
      c.aircraft_type = a.name →
      0 < catCount s.aircraftparts s.parts aid c.name →
      install s aid cid = Except.error InstallError.CategoryOccupied ∧
      ∀ s', install s aid cid ≠ Except.ok s') := by
  constructor
  · intro s' hok
    obtain ⟨a, c, hA, hC, hm, hocc, hused, hs'⟩ := install_ok_elim hok
    subst hs'
    intro aid2 cat
    unfold installResult
    simp only []
    rw [catCount_setUsage, catCount_append_one]
    by_cases hcase :
        (AircraftPart.mk s.nextLinkId aid cid).aircraft = aid2 ∧
        linkCategory s.parts (AircraftPart.mk s.nextLinkId aid cid) = some cat
    · rw [if_pos hcase]
      obtain ⟨haid, hcat⟩ := hcase
      simp only [] at haid
      have hcat2 : c.name = cat := by
        unfold linkCategory at hcat
        simp only [] at hcat
        rw [hC] at hcat
        simpa using hcat
      subst haid
      rw [← hcat2, hocc]
    · rw [if_neg hcase]
      simpa using hinv aid2 cat
  · intro a c hA hC hm hocc
    have h : install s aid cid = Except.error InstallError.CategoryOccupied := by
      unfold install
      rw [hA, hC]
      simp [hm, hocc]
    exact ⟨h, fun s' hk => by rw [h] at hk; cases hk⟩

/-- C2: for every component in the store, `usageState = INSTALLED` iff exactly
one installation link references it, and never more than one; a successful
`install` preserves this, leaves exactly one link referencing the installed
component and marks it INSTALLED; a successful `uninstall` of an existing
component preserves this, leaves zero links referencing it and marks it
AVAILABLE — no drift between the cached flag and the ledger, and no component
ever appears in two links. -/
theorem usage_state_ledger_sync (s : Store) (hinv : usageConsistent s) :
    (∀ c ∈ s.parts,
      (c.usageState = UsageState.INSTALLED ↔
        linkCount s.aircraftparts c.id = 1) ∧
      linkCount s.aircraftparts c.id ≤ 1) ∧
    (∀ aid cid s', install s aid cid = Except.ok s' →
      usageConsistent s' ∧ linkCount s'.aircraftparts cid = 1 ∧
      (∀ c ∈ s'.parts, c.id = cid → c.usageState = UsageState.INSTALLED)) ∧
    (∀ aid cid s', (∃ c0 ∈ s.parts, c0.id = cid) →
      uninstall s aid cid = Except.ok s' →
      usageConsistent s' ∧ linkCount s'.aircraftparts cid = 0 ∧
      (∀ c ∈ s'.parts, c.id = cid → c.usageState = UsageState.AVAILABLE)) := by
  refine ⟨?_, ?_, ?_⟩
  · intro c hc
    have h := hinv c hc
    by_cases hu : c.is_used = true
    · rw [hu] at h
      simp only [if_true] at h
      simp [Part.usageState, hu, h]
    · simp only [Bool.not_eq_true] at hu
      rw [hu] at h
      simp only [Bool.false_eq_true, if_false] at h
      simp [Part.usageState, hu, h]
  · intro aid cid s' hok
    obtain ⟨a, c, hA, hC, hm, hocc, hused, hs'⟩ := install_ok_elim hok
    obtain ⟨hcmem, hcid⟩ := findPart_some s.parts cid c hC
    have hzero : linkCount s.aircraftparts cid = 0 := by
      have h := hinv c hcmem
      rw [hcid, hused] at h
      simpa using h
    subst hs'
    refine ⟨?_, ?_, ?_⟩
    · intro c' hc'
      rw [installResult_parts] at hc'
      rw [installResult_aircraftparts]
      obtain ⟨c0, hc0mem, heq⟩ := List.mem_map.mp hc'
      subst heq
      rw [linkCount_append_one]
      by_cases h0 : c0.id = cid
      · simp [h0, hzero]
      · have := hinv c0 hc0mem
        simp only [h0, beq_iff_eq, if_neg, ite_false]
        have hne : ¬ (cid = c0.id) := fun h => h0 h.symm
        simp [h0, hne, this]
    · rw [installResult_aircraftparts, linkCount_append_one]
      simp [hzero]
    · intro c' hc' hc'id
      rw [installResult_parts] at hc'
      obtain ⟨c0, hc0mem, heq⟩ := List.mem_map.mp hc'
      subst heq
      by_cases h0 : c0.id = cid
      · simp [Part.usageState, h0]
      · simp [h0] at hc'id
  · intro aid cid s' hex hok
    obtain ⟨c0, hc0mem, hc0id⟩ := hex
    obtain ⟨hpair, hs'⟩ := uninstall_ok_elim hok
    have hone : linkCount s.aircraftparts cid = 1 := by
      have hle := pairCount_le_linkCount s.aircraftparts aid cid
      have h0 := hinv c0 hc0mem
      rw [hc0id] at h0
      by_cases hu : c0.is_used = true
      · rw [hu] at h0
        simpa using h0
      · simp only [Bool.not_eq_true] at hu
        rw [hu] at h0
        simp only [Bool.false_eq_true, if_false] at h0
        omega
    subst hs'
    refine ⟨?_, ?_, ?_⟩
    · intro c' hc'
      rw [uninstallResult_parts] at hc'
      rw [uninstallResult_aircraftparts]
      obtain ⟨c1, hc1mem, heq⟩ := List.mem_map.mp hc'
      subst heq
      by_cases h1 : c1.id = cid
      · simp only [h1, beq_self_eq_true, if_true]
        rw [linkCount_remove_unique s.aircraftparts aid cid hone hpair]
        simp
      · simp only [h1, beq_iff_eq, ite_false, if_neg h1]
        rw [linkCount_filter_other s.aircraftparts aid cid c1.id h1]
        exact hinv c1 hc1mem
    · rw [uninstallResult_aircraftparts]
      exact linkCount_remove_unique s.aircraftparts aid cid hone hpair
    · intro c' hc' hc'id
      rw [uninstallResult_parts] at hc'
      obtain ⟨c1, hc1mem, heq⟩ := List.mem_map.mp hc'
      subst heq
      by_cases h1 : c1.id = cid
      · simp [Part.usageState, h1]
      · simp [h1] at hc'id

/-- Witness for C2: in `sOccupied` (which satisfies the no-drift invariant)
the installed component `wing1` is INSTALLED iff exactly one link references
it. -/
theorem usage_state_ledger_sync_witness :
    wing1.usageState = UsageState.INSTALLED ↔
      linkCount sOccupied.aircraftparts wing1.id = 1 := by
  have h := usage_state_ledger_sync sOccupied (by
    unfold usageConsistent
    decide)
  exact (h.1 wing1 (by decide)).1

/-- Witness for C1: in `sOccupied` the WING slot of aircraft 1 is occupied by
`wing1`; installing `wing2` there is rejected with `CategoryOccupied`. -/
theorem install_category_slot_witness :
    install sOccupied 1 2 = Except.error InstallError.CategoryOccupied ∧
    ∀ s', install sOccupied 1 2 ≠ Except.ok s' := by
  have hinv : atMostOnePerCategory sOccupied := by
    intro aid cat
    show catCount [⟨1, 1, 1⟩] sOccupied.parts aid cat ≤ 1
    rw [catCount_cons]
    split <;> simp [catCount]
  exact (install_category_slot sOccupied 1 2 hinv).2 tb2A1 wing2 rfl rfl
    (by decide) (by decide)

/-- C8: an aircraft's `is_produced` recomputation is true iff exactly one
installation link exists for each of the four categories, and it is a pure
function of the current links (and the parts table giving links their
categories): any missing category forces false. -/
theorem is_produced_recompute_exact (links : List AircraftPart)
    (ps : List Part) (aid : Nat) :
    (isProducedRecompute links ps aid = true ↔
      ∀ cat : Category, catCount links ps aid cat = 1) ∧
    (∀ cat : Category, catCount links ps aid cat = 0 →
      isProducedRecompute links ps aid = false) :=
  ⟨isProducedRecompute_iff links ps aid,
   fun cat h => isProducedRecompute_false_of_zero links ps aid cat h⟩

/-- Witness for C8: in `sOccupied` only the WING slot of aircraft 1 is
filled, the BODY count is zero, so the recomputation yields false. -/
theorem is_produced_recompute_exact_witness :
    isProducedRecompute sOccupied.aircraftparts sOccupied.parts 1 = false :=
  (is_produced_recompute_exact sOccupied.aircraftparts sOccupied.parts 1).2
    Category.BODY (by decide)

/-- C6: a successful `install` immediately followed by `uninstall` of the
same (aircraft, component) pair succeeds, restores the component's usage to
AVAILABLE (the parts table equals the original with the component's flag back
at false, and the component record itself is restored exactly), removes the
installation link, and leaves the aircraft's `is_produced` false. -/
theorem install_uninstall_round_trip (s : Store) (aid cid : Nat) (s1 : Store)
    (hok : install s aid cid = Except.ok s1) :
    ∃ s2, uninstall s1 aid cid = Except.ok s2 ∧
      s2.parts = setUsage s.parts cid false ∧
      findPart s2.parts cid = findPart s.parts cid ∧
      (∀ c ∈ s2.parts, c.id = cid → c.usageState = UsageState.AVAILABLE) ∧
      pairCount s2.aircraftparts aid cid = 0 ∧
      (∀ a2 ∈ s2.aircrafts, a2.id = aid → a2.is_produced = false) := by
  obtain ⟨a, c, hA, hC, hm, hocc, hused, hs1⟩ := install_ok_elim hok
  have hpair : pairCount s1.aircraftparts aid cid ≠ 0 := by
    rw [hs1, installResult_aircraftparts, pairCount_append_one]
    simp
  refine ⟨uninstallResult s1 aid cid, uninstall_ok_intro s1 aid cid hpair,
    ?_, ?_, ?_, ?_, ?_⟩
  · rw [uninstallResult_parts, hs1, installResult_parts, setUsage_setUsage]
  · rw [uninstallResult_parts, hs1, installResult_parts, setUsage_setUsage]
    rw [findPart_setUsage_self s.parts cid false c hC, hC]
    have hceq : ({ c with is_used := false } : Part) = c := by
      obtain ⟨i, n, t, u, tm⟩ := c
      simp only [] at hused
      rw [hused]
    rw [hceq]
  · intro c' hc' hc'id
    rw [uninstallResult_parts, hs1, installResult_parts, setUsage_setUsage] at hc'
    obtain ⟨c0, hc0mem, heq⟩ := List.mem_map.mp hc'
    subst heq
    by_cases h0 : c0.id = cid
    · simp [Part.usageState, h0]
    · simp [h0] at hc'id
  · rw [uninstallResult_aircraftparts]
    exact pairCount_filter_not s1.aircraftparts aid cid
  · have hrec : isProducedRecompute
        (s1.aircraftparts.filter (fun l => !(l.aircraft == aid && l.part == cid)))
        (setUsage s1.parts cid false) aid = false := by
      apply isProducedRecompute_false_of_zero _ _ aid c.name
      rw [catCount_setUsage]
      have hfil : s1.aircraftparts.filter
          (fun l => !(l.aircraft == aid && l.part == cid))
          = s.aircraftparts.filter (fun l => !(l.aircraft == aid && l.part == cid)) := by
        rw [hs1, installResult_aircraftparts, List.filter_append]
        simp
      rw [hfil, hs1, installResult_parts, catCount_setUsage]
      have hle : catCount
          (s.aircraftparts.filter (fun l => !(l.aircraft == aid && l.part == cid)))
          s.parts aid c.name ≤ catCount s.aircraftparts s.parts aid c.name :=
        catCount_sublist _ _ _ _ _ (List.filter_sublist _)
      omega
    intro a2 ha2 ha2id
    rw [uninstallResult_aircrafts] at ha2
    obtain ⟨a1, ha1mem, heq⟩ := List.mem_map.mp ha2
    subst heq
    by_cases h1 : a1.id = aid
    · simp only [h1, beq_self_eq_true, if_true]
      exact hrec
    · simp [h1] at ha2id

/-- Witness for C6: installing the available wing into the fresh TB2 aircraft
and immediately uninstalling it restores the pre-install state. -/
theorem install_uninstall_round_trip_witness :
    ∃ s2, uninstall (installResult sFresh 1 2) 1 2 = Except.ok s2 ∧
      s2.parts = setUsage sFresh.parts 2 false ∧
      findPart s2.parts 2 = findPart sFresh.parts 2 ∧
      (∀ c ∈ s2.parts, c.id = 2 → c.usageState = UsageState.AVAILABLE) ∧
      pairCount s2.aircraftparts 1 2 = 0 ∧
      (∀ a2 ∈ s2.aircrafts, a2.id = 1 → a2.is_produced = false) :=
  install_uninstall_round_trip sFresh 1 2 (installResult sFresh 1 2)
    (install_ok_intro sFresh 1 2 tb2A1 wing2 rfl rfl (by decide) (by decide)
      (by decide))

/-- C5: for a recycle call over ids that are all present and owned by the
acting team, if any listed component is INSTALLED the whole batch is rejected
with `ComponentInUse` and no mutated store is ever returned (zero components
destroyed); on success all listed components are removed and every unlisted
component is kept, in one atomic step that touches nothing else. -/
theorem recycle_all_or_nothing (s : Store) (ids : List Nat) (team : String)
    (hown : ∀ i ∈ ids, ∃ c, findPart s.parts i = some c ∧ c.team = team) :
    ((∃ i ∈ ids, ∃ c, findPart s.parts i = some c ∧ c.is_used = true) →
      recycle s ids team = Except.error RecycleError.ComponentInUse ∧
      ∀ s', recycle s ids team ≠ Except.ok s') ∧
    (∀ s', recycle s ids team = Except.ok s' →
      s'.parts = s.parts.filter (fun c => !(ids.contains c.id)) ∧
      (∀ c ∈ s.parts, c.id ∈ ids → c ∉ s'.parts) ∧
      (∀ c ∈ s.parts, c.id ∉ ids → c ∈ s'.parts) ∧
      s'.aircrafts = s.aircrafts ∧ s'.aircraftparts = s.aircraftparts) := by
  have hforeign : (ids.any (fun i =>
      match findPart s.parts i with
      | some c => c.team != team
      | none => true)) = false := by
    rw [List.any_eq_false]
    intro i hi
    obtain ⟨c, hc, hteam⟩ := hown i hi
    rw [hc]
    simp [hteam]
  constructor
  · rintro ⟨i, hi, c, hc, hu⟩
    have hinuse : (ids.any (fun i =>
        match findPart s.parts i with
        | some c => c.is_used
        | none => false)) = true := by
      rw [List.any_eq_true]
      refine ⟨i, hi, ?_⟩
      rw [hc]
      exact hu
    have h : recycle s ids team = Except.error RecycleError.ComponentInUse := by
      unfold recycle
      rw [hforeign, hinuse]
      simp
    exact ⟨h, fun s' hk => by rw [h] at hk; cases hk⟩
  · intro s' h
    unfold recycle at h
    rw [hforeign] at h
    simp only [Bool.false_eq_true, if_false] at h
    split at h
    · exact absurd h (by simp)
    · have hs' : s' = { s with
          parts := s.parts.filter (fun c => !(ids.contains c.id)) } := by
        simpa using h.symm
      subst hs'
      refine ⟨rfl, ?_, ?_, rfl, rfl⟩
      · intro c hc hcid hmem
        have hmem2 : c ∈ s.parts.filter (fun c => !(ids.contains c.id)) := hmem
        rw [List.mem_filter] at hmem2
        simp [hcid] at hmem2
      · intro c hc hcid
        show c ∈ s.parts.filter (fun c => !(ids.contains c.id))
        exact List.mem_filter.mpr ⟨hc, by simp [hcid]⟩

/-- Witness for C5: recycling `[wing1, wing2]` as Wing Team, where `wing1` is
INSTALLED, destroys zero components and returns `ComponentInUse`. -/
theorem recycle_all_or_nothing_witness :
    recycle sOccupied [1, 2] "Wing Team"
        = Except.error RecycleError.ComponentInUse ∧
    ∀ s', recycle sOccupied [1, 2] "Wing Team" ≠ Except.ok s' :=
  (recycle_all_or_nothing sOccupied [1, 2] "Wing Team"
    (by
      intro i hi
      fin_cases hi
      · exact ⟨wing1, rfl, rfl⟩
      · exact ⟨wing2, rfl, rfl⟩)).1
    ⟨1, by decide, wing1, rfl, rfl⟩

/-- C7: the component category is implied by the acting identity's team via
the static mapping (Wing Team→WING, Body Team→BODY, Tail Team→TAIL,
Avionics Team→AVIONICS) and cannot be freely chosen: requesting a category
different from the team's allowed category fails with `CategoryMismatch` —
both at the pure authorization gate and in the create path — and creates no
component. -/
theorem create_category_implied_by_team :
    (partTypeMap "Wing Team" = some Category.WING ∧
     partTypeMap "Body Team" = some Category.BODY ∧
     partTypeMap "Tail Team" = some Category.TAIL ∧
     partTypeMap "Avionics Team" = some Category.AVIONICS) ∧
    (∀ s team requested model nid allowed,
      partTypeMap team = some allowed → requested ≠ allowed →
      authorizeCreation team requested
          = Except.error CreateError.CategoryMismatch ∧
      createPart s team requested model nid
          = Except.error CreateError.CategoryMismatch ∧
      ∀ s', createPart s team requested model nid ≠ Except.ok s') := by
  refine ⟨⟨rfl, rfl, rfl, rfl⟩, ?_⟩
  intro s team requested model nid allowed hmap hne
  have hauth : authorizeCreation team requested
      = Except.error CreateError.CategoryMismatch := by
    unfold authorizeCreation
    rw [hmap]
    simp [hne]
  have hcreate : createPart s team requested model nid
      = Except.error CreateError.CategoryMismatch := by
    unfold createPart
    rw [hauth]
  exact ⟨hauth, hcreate, fun s' hk => by rw [hcreate] at hk; cases hk⟩

/-- Witness for C7: creating a BODY component as a member of "Wing Team"
fails with `CategoryMismatch` and creates no component. -/
theorem create_category_implied_by_team_witness :
    createPart sFresh "Wing Team" Category.BODY "TB2" 9
        = Except.error CreateError.CategoryMismatch :=
  (create_category_implied_by_team.2 sFresh "Wing Team" Category.BODY "TB2" 9
    Category.WING rfl (by decide)).2.1

/-- C9: under the mutual-exclusion regime of §5 the only observable
interleavings of two install calls are their serializations; in every
serialization, after one call wins, the loser observes the conflict error.
First conjunct: two installs race for the same (aircraft, category) slot with
different components — after the first succeeds, the second is rejected with
`CategoryOccupied` (so exactly one succeeds, no double link).  Second
conjunct: two installs race to put the same component into two aircraft —
after the first succeeds, the second is rejected with
`ComponentAlreadyInstalled`. -/
theorem install_race_one_winner (s : Store) :
    (∀ aid cid1 cid2 s1 a c1 c2,
      findAircraft s.aircrafts aid = some a →
      findPart s.parts cid1 = some c1 →
      findPart s.parts cid2 = some c2 →
      cid2 ≠ cid1 →
      c2.name = c1.name →
      c2.aircraft_type = a.name →
      install s aid cid1 = Except.ok s1 →
      install s1 aid cid2 = Except.error InstallError.CategoryOccupied) ∧
    (∀ aid1 aid2 cid s1 a2 c,
      findAircraft s.aircrafts aid2 = some a2 →
      findPart s.parts cid = some c →
      aid2 ≠ aid1 →
      c.aircraft_type = a2.name →
      catCount s.aircraftparts s.parts aid2 c.name = 0 →
      install s aid1 cid = Except.ok s1 →
      install s1 aid2 cid = Except.error InstallError.ComponentAlreadyInstalled) := by
  constructor
  · intro aid cid1 cid2 s1 a c1 c2 hA hC1 hC2 hne hsame hm2 hok1
    obtain ⟨a', c1', hA', hC1', hm1, hocc1, hused1, hs1⟩ := install_ok_elim hok1
    rw [hA] at hA'
    rw [hC1] at hC1'
    have ha : a = a' := Option.some.inj hA'
    have hc1 : c1 = c1' := Option.some.inj hC1'
    subst ha
    subst hc1
    subst hs1
    have haid := (findAircraft_some s.aircrafts aid a hA).2
    have hfa : findAircraft (installResult s aid cid1).aircrafts aid
        = some { a with
            is_produced :=
              isProducedRecompute (s.aircraftparts ++ [⟨s.nextLinkId, aid, cid1⟩])
                (setUsage s.parts cid1 true) aid } := by
      rw [installResult_aircrafts, findAircraft_setProduced, hA]
      simp [haid]
    have hfp : findPart (installResult s aid cid1).parts cid2 = some c2 := by
      rw [installResult_parts, findPart_setUsage_other _ _ _ _ hne, hC2]
    have hcat : catCount (installResult s aid cid1).aircraftparts
        (installResult s aid cid1).parts aid c2.name = 1 := by
      rw [installResult_aircraftparts, installResult_parts, catCount_setUsage,
        catCount_append_one]
      rw [hsame, hocc1]
      have hlc : linkCategory s.parts (AircraftPart.mk s.nextLinkId aid cid1)
          = some c1.name := by
        unfold linkCategory
        simp only []
        rw [hC1]
        rfl
      simp [hlc]
    unfold install
    rw [hfa, hfp]
    simp [hm2, hcat]
  · intro aid1 aid2 cid s1 a2 c hA2 hC hne hm2 hslot hok1
    obtain ⟨a1, c', hA1, hC', hm1, hocc1, hused1, hs1⟩ := install_ok_elim hok1
    rw [hC] at hC'
    have hc : c = c' := Option.some.inj hC'
    subst hc
    subst hs1
    have haid2 := (findAircraft_some s.aircrafts aid2 a2 hA2).2
    have hfa : findAircraft (installResult s aid1 cid).aircrafts aid2
        = some a2 := by
      rw [installResult_aircrafts, findAircraft_setProduced, hA2]
      have : ¬ (a2.id = aid1) := by rw [haid2]; exact hne
      simp [this]
    have hfp : findPart (installResult s aid1 cid).parts cid
        = some { c with is_used := true } := by
      rw [installResult_parts]
      exact findPart_setUsage_self s.parts cid true c hC
    have hcat : catCount (installResult s aid1 cid).aircraftparts
        (installResult s aid1 cid).parts aid2 c.name = 0 := by
      rw [installResult_aircraftparts, installResult_parts, catCount_setUsage,
        catCount_append_one]
      rw [hslot]
      have : ¬ ((AircraftPart.mk s.nextLinkId aid1 cid).aircraft = aid2 ∧
          linkCategory s.parts (AircraftPart.mk s.nextLinkId aid1 cid)
            = some c.name) := by
        rintro ⟨h1, _⟩
        exact hne (h1.symm)
      simp [this]
    unfold install
    rw [hfa, hfp]
    simp [hm2, hcat]

/-- Witness for C9: in `sRace` installing `wing2` into aircraft 1 succeeds;
the racing install of `wing3` into the same WING slot then observes
`CategoryOccupied`. -/
theorem install_race_one_winner_witness :
    install (installResult sRace 1 2) 1 3
      = Except.error InstallError.CategoryOccupied :=
  (install_race_one_winner sRace).1 1 2 3 (installResult sRace 1 2) tb2A1
    wing2 wing3 rfl rfl rfl (by decide) (by decide) (by decide)
    (install_ok_intro sRace 1 2 tb2A1 wing2 rfl rfl (by decide) (by decide)
      (by decide))

theorem postAircraftPart_ok {s : Store} {aid cid : Nat} {s1 : Store}
    (h : postAircraftPart s aid cid = Except.ok s1) :
    s1.parts = s.parts ∧ s1.aircrafts = s.aircrafts ∧
    s1.aircraftparts = s.aircraftparts ++ [⟨s.nextLinkId, aid, cid⟩] := by
  unfold postAircraftPart at h
  split at h
  · split at h
    · exact absurd h (by simp)
    · split at h
      · exact absurd h (by simp)
      · split at h
        · exact absurd h (by simp)
        · have he := Except.ok.inj h
          subst he
          exact ⟨rfl, rfl, rfl⟩
  · exact absurd h (by simp)

/-- C3 counterexample: at the concrete input `sFresh` (one available TB2
wing, one TB2 aircraft, no links), running the add-part flow with the usage
PATCH failing after the link POST succeeded makes the operation fail (the
catch block reports an error), yet the link mutation stays applied while the
usage flag does not — so the claim that a failing install leaves no part of
steps 3–5 applied is false for this code. -/
theorem handle_add_part_not_atomic :
    (handleAddPart sFresh [] wing2 1 false).2 = true ∧
    (handleAddPart sFresh [] wing2 1 false).1.aircraftparts
      = [⟨1, 1, 2⟩] ∧
    (handleAddPart sFresh [] wing2 1 false).1.aircraftparts
      ≠ sFresh.aircraftparts ∧
    (handleAddPart sFresh [] wing2 1 false).1.parts = sFresh.parts ∧
    findPart (handleAddPart sFresh [] wing2 1 false).1.parts 2
      = some wing2 := by
  refine ⟨rfl, rfl, ?_, rfl, rfl⟩
  decide

/-- C3 (amended): the add-part flow is two sequential calls, not one atomic
unit — after the guards pass and the backend POST creates the link, the
separate usage PATCH either succeeds (then the link is created and the usage
flag is set) or fails (then the operation reports an error but the created
link remains while the parts table is untouched). -/
theorem handle_add_part_two_phase (s : Store) (cur : List Part) (part : Part)
    (aid : Nat) (s1 : Store)
    (hg1 : ∀ p ∈ cur, ¬ (p.name = part.name))
    (hg2 : ∀ p ∈ cur, ¬ (p.id = part.id))
    (hpost : postAircraftPart s aid part.id = Except.ok s1) :
    handleAddPart s cur part aid true
        = ({ s1 with parts := setUsage s1.parts part.id true }, false) ∧
    handleAddPart s cur part aid false = (s1, true) ∧
    s1.parts = s.parts ∧
    s1.aircraftparts = s.aircraftparts ++ [⟨s.nextLinkId, aid, part.id⟩] := by
  have hany1 : (cur.any (fun p => p.name == part.name)) = false := by
    rw [List.any_eq_false]
    intro p hp
    simpa using hg1 p hp
  have hany2 : (cur.any (fun p => p.id == part.id)) = false := by
    rw [List.any_eq_false]
    intro p hp
    simpa using hg2 p hp
  obtain ⟨hparts, _, hlinks⟩ := postAircraftPart_ok hpost
  unfold handleAddPart
  rw [hany1, hany2, hpost]
  exact ⟨by simp, by simp, hparts, hlinks⟩

/-- Witness for the amended C3: on `sFresh`, the POST yields `sPosted`; with
the PATCH succeeding both effects apply, with it failing only the link
remains. -/
theorem handle_add_part_two_phase_witness :
    handleAddPart sFresh [] wing2 1 true
        = ({ sPosted with parts := setUsage sPosted.parts wing2.id true }, false) ∧
    handleAddPart sFresh [] wing2 1 false = (sPosted, true) ∧
    sPosted.parts = sFresh.parts ∧
    sPosted.aircraftparts = sFresh.aircraftparts ++ [⟨sFresh.nextLinkId, 1, wing2.id⟩] :=
  handle_add_part_two_phase sFresh [] wing2 1 sPosted (by simp) (by simp)
    (by rfl)

/-- C10: when the AircraftPart query for (part, aircraft) returns more than
one matching link, `handleRemovePart` succeeds but deletes only the first
returned link — the second matching link survives — while the part's
`is_used` flag is unconditionally reset, so the part reads AVAILABLE even
though a link still references it. -/
theorem handle_remove_part_first_only (s : Store) (part : Part) (aid : Nat)
    (l1 l2 : AircraftPart) (rest : List AircraftPart)
    (hq : s.aircraftparts.filter (fun l => l.part == part.id && l.aircraft == aid)
        = l1 :: l2 :: rest)
    (hne : l2.id ≠ l1.id) :
    ∃ s2, handleRemovePart s part aid = some s2 ∧
      s2.aircraftparts = s.aircraftparts.filter (fun l => l.id != l1.id) ∧
      l2 ∈ s2.aircraftparts ∧ l2.part = part.id ∧ l2.aircraft = aid ∧
      s2.parts = setUsage s.parts part.id false ∧
      (∀ c ∈ s2.parts, c.id = part.id →
        c.usageState = UsageState.AVAILABLE) := by
  have hl2 : l2 ∈ s.aircraftparts.filter
      (fun l => l.part == part.id && l.aircraft == aid) := by
    rw [hq]
    simp
  have hl2mem := (List.mem_filter.mp hl2).1
  have hl2pred := (List.mem_filter.mp hl2).2
  simp only [Bool.and_eq_true, beq_iff_eq] at hl2pred
  unfold handleRemovePart
  rw [hq]
  refine ⟨_, rfl, rfl, ?_, hl2pred.1, hl2pred.2, rfl, ?_⟩
  · exact List.mem_filter.mpr ⟨hl2mem, by simp [hne]⟩
  · intro c hc hcid
    obtain ⟨c0, hc0mem, heq⟩ := List.mem_map.mp hc
    subst heq
    by_cases h0 : c0.id = part.id
    · simp [Part.usageState, h0]
    · simp [h0] at hcid

/-- Witness for C10: in `sDup` two links reference (part 1, aircraft 1);
removing the part deletes only link 1, link 2 survives, and the part is reset
to AVAILABLE. -/
theorem handle_remove_part_first_only_witness :
    ∃ s2, handleRemovePart sDup wing1 1 = some s2 ∧
      s2.aircraftparts = sDup.aircraftparts.filter (fun l => l.id != 1) ∧
      AircraftPart.mk 2 1 1 ∈ s2.aircraftparts ∧
      (AircraftPart.mk 2 1 1).part = wing1.id ∧
      (AircraftPart.mk 2 1 1).aircraft = 1 ∧
      s2.parts = setUsage sDup.parts wing1.id false ∧
      (∀ c ∈ s2.parts, c.id = wing1.id →
        c.usageState = UsageState.AVAILABLE) :=
  handle_remove_part_first_only sDup wing1 1 ⟨1, 1, 1⟩ ⟨2, 1, 1⟩ []
    (by decide) (by decide)

end UAV
